import Mathlib

set_option maxRecDepth 8000

/-!
Shallow embedding of the adaptive polling / backoff core of `neurox`
(`src/neurox/app.py`, class `NeuroxApp`), together with the preset-list
update operation `update_preset` and the per-tick effect pipeline
(`update` → `show_updates` / error notifications → `render_menu`).

The mutable fields `self.iteration` and `self.update_cycle_len` become an
explicit `PollState`; the timer callback `NeuroxApp.update` becomes a
function from the state (plus the environment's response to the remote
call `self.client.update()`, and the cached active-job list that
`render_menu` reads via `self.client.get_active_jobs()`) to the new state
and a list of observable effects.  Python exceptions raised by
`self.client.update()` are modelled with `Except`.
-/

namespace NeuroxApp

/-- Constant `NeuroxApp.UPDATE_DELAY`: period of the external timer, in seconds. -/
def UPDATE_DELAY : Nat := 1

/-- Constant `NeuroxApp.MAX_UPDATE_CYCLE_LEN`: cap on the backoff cycle length. -/
def MAX_UPDATE_CYCLE_LEN : Nat := 30

/-- The poller's mutable state: `self.iteration` and `self.update_cycle_len`. -/
structure PollState where
  iteration : Nat
  update_cycle_len : Nat
deriving Repr, DecidableEq

/-- State set in `NeuroxApp.__init__`: `self.iteration = 0`,
`self.update_cycle_len = 1`. -/
def initState : PollState := { iteration := 0, update_cycle_len := 1 }

/-- Source `NeuroxApp.set_active_mode`: `self.update_cycle_len = 1`
(the iteration counter is left untouched). -/
def set_active_mode (s : PollState) : PollState :=
  { s with update_cycle_len := 1 }

/-- Modelled from the spec: `JobDescription` lives in `neurox/client.py`, which is not under `src/`; the fields are the ones `app.py` and the spec use.  A job description, with its creation timestamp
(`job.history.created_at`, an ISO-8601 string in the source) modelled as
the parsed point on the timeline, a `Nat`, since `render_menu` only uses
it through `datetime.fromisoformat` as a sort key. -/
structure JobDescription where
  id : String
  status : String
  created_at : Nat
deriving Repr, DecidableEq

/-- Modelled from the spec: `StatusUpdate` and `NewJobUpdate` live in `neurox/client.py`, which is not under `src/`; the spec gives their fields.  The update events returned by `NeuroxClient.update()`:
`StatusUpdate` and `NewJobUpdate`, each with `job_id`, `status` and an
optional `reason` (Python `None` becomes `none`). -/
inductive Update where
  | statusUpdate (job_id : String) (status : String) (reason : Option String)
  | newJobUpdate (job_id : String) (status : String) (reason : Option String)
deriving Repr, DecidableEq

/-- Observable effects of one tick: the remote poll call
`self.client.update()`, a `rumps.notification(title, subtitle, message)`,
and a rebuild of the menu showing a job list (`render_menu`). -/
inductive Effect where
  | pollRemote
  | notification (title : String) (subtitle : String) (message : String)
  | renderMenu (jobs : List JobDescription)
deriving Repr, DecidableEq

/-- Truthiness of `update.reason`: Python `f' ({update.reason})' if update.reason else ''`
(both `None` and the empty string are falsy). -/
def reasonSuffix : Option String → String
  | none => ""
  | some r => if r = "" then "" else " (" ++ r ++ ")"

/-- Source `NeuroxApp.show_updates`: one notification per update, titled
`'Job status has changed'` for a `StatusUpdate` and `'New job is created'`
for a `NewJobUpdate`. -/
def show_updates : List Update → List Effect
  | [] => []
  | Update.statusUpdate job_id status reason :: rest =>
      Effect.notification "Job status has changed" job_id
        ("New status: " ++ status ++ reasonSuffix reason) :: show_updates rest
  | Update.newJobUpdate job_id status reason :: rest =>
      Effect.notification "New job is created" job_id
        ("Status: " ++ status ++ reasonSuffix reason) :: show_updates rest

/-- The job list built in `render_menu`:
`sorted(self.client.get_active_jobs(), key=lambda it: datetime.fromisoformat(it.history.created_at))`. -/
def sorted_active_jobs (jobs : List JobDescription) : List JobDescription :=
  jobs.mergeSort (fun a b => decide (a.created_at ≤ b.created_at))

/-- Modelled from the spec: `NeuroxClient.get_active_jobs` (in `neurox/client.py`, not under `src/`) is a read of the client's cached job set and does not raise; the spec treats the re-render as reading "the current job list".  `NeuroxApp.render_menu` is abstracted to its observable outcome: the menu
presents the active jobs sorted by creation time. -/
def render_menu (active_jobs : List JobDescription) : Effect :=
  Effect.renderMenu (sorted_active_jobs active_jobs)

/-- Exceptions distinguished by the `try` block in `NeuroxApp.update`:
`ValueError`, `AuthenticationError`, and any other `Exception`
(e.g. Internet connection problems). -/
inductive PyExc where
  | valueError (msg : String)
  | authError
  | otherExc
deriving Repr, DecidableEq

/-- Source `NeuroxApp.update` restricted to the poll-state transition, with a
flag telling whether the backoff skip was taken (`False`) or the poll
branch executed (`True`):

    self.iteration += 1
    if self.iteration < self.update_cycle_len: return
    self.iteration = 0
    self.update_cycle_len = min(2 * self.update_cycle_len, self.MAX_UPDATE_CYCLE_LEN)
-/
def update (s : PollState) : PollState × Bool :=
  let iteration := s.iteration + 1
  if iteration < s.update_cycle_len then
    ({ s with iteration := iteration }, false)
  else
    ({ iteration := 0,
       update_cycle_len := min (2 * s.update_cycle_len) MAX_UPDATE_CYCLE_LEN }, true)

/-- The `try` block of `NeuroxApp.update` together with its `except` arms:
`res` is the outcome of `self.client.update()` (a list of updates, or a
raised exception).  Every arm returns normally: `ValueError` and
`AuthenticationError` produce a notification, any other exception is
swallowed (`pass`). -/
def try_update_body (res : Except PyExc (List Update)) : List Effect :=
  match res with
  | Except.ok updates => Effect.pollRemote :: show_updates updates
  | Except.error (PyExc.valueError e) =>
      [Effect.pollRemote, Effect.notification "Failed to get updates" "" e]
  | Except.error PyExc.authError =>
      [Effect.pollRemote,
       Effect.notification "Failed to get updates" "" "You may be using the wrong token"]
  | Except.error PyExc.otherExc => [Effect.pollRemote]

/-- One full tick of `NeuroxApp.update`: the backoff bookkeeping, then
(on the poll branch) the guarded remote call and, outside the `try`,
`self.render_menu()`.  `res` is the environment's response to
`self.client.update()`; `active_jobs` is the client's cached active-job
list that `render_menu` reads afterwards. -/
def update_tick (s : PollState) (res : Except PyExc (List Update))
    (active_jobs : List JobDescription) : PollState × List Effect :=
  let iteration := s.iteration + 1
  if iteration < s.update_cycle_len then
    ({ s with iteration := iteration }, [])
  else
    ({ iteration := 0,
       update_cycle_len := min (2 * s.update_cycle_len) MAX_UPDATE_CYCLE_LEN },
     try_update_body res ++ [render_menu active_jobs])

/-- Source `NeuroxApp.update` with exception propagation made explicit: a
raised exception that no `except` arm catches surfaces as `Except.error`.
The `try` only guards the poll body (`self.client.update()` together with
the `show_updates` loop), whose merged outcome is `res`.  The
`rumps.notification` call inside the `ValueError` / `AuthenticationError`
arms and the `self.render_menu()` call after the `try` run unprotected,
so the environment supplies their outcomes as well: `notifyExc` is
`some exc` when the arm's notification delivery raises `exc`, and
`renderExc` is `some exc` when the re-render (reading the settings store,
the cached job list and the menu toolkit) raises `exc`; either exception
propagates out of the tick handler to the timer. -/
def update_tick_exc (s : PollState) (res : Except PyExc (List Update))
    (notifyExc : Option PyExc) (renderExc : Option PyExc)
    (active_jobs : List JobDescription) : Except PyExc (PollState × List Effect) :=
  let iteration := s.iteration + 1
  if iteration < s.update_cycle_len then
    Except.ok ({ s with iteration := iteration }, [])
  else
    let s' : PollState :=
      { iteration := 0,
        update_cycle_len := min (2 * s.update_cycle_len) MAX_UPDATE_CYCLE_LEN }
    let handled : Except PyExc (List Effect) :=
      match res with
      | Except.ok updates => Except.ok (Effect.pollRemote :: show_updates updates)
      | Except.error (PyExc.valueError e) =>
          match notifyExc with
          | none =>
              Except.ok [Effect.pollRemote,
                Effect.notification "Failed to get updates" "" e]
          | some exc => Except.error exc
      | Except.error PyExc.authError =>
          match notifyExc with
          | none =>
              Except.ok [Effect.pollRemote,
                Effect.notification "Failed to get updates" ""
                  "You may be using the wrong token"]
          | some exc => Except.error exc
      | Except.error PyExc.otherExc => Except.ok [Effect.pollRemote]
    match handled with
    | Except.error e => Except.error e
    | Except.ok effs =>
        match renderExc with
        | some exc => Except.error exc
        | none => Except.ok (s', effs ++ [render_menu active_jobs])

/-- The operations that touch the poll state: a timer tick, and a backoff
reset (`set_active_mode`, called after job submission / kill). -/
inductive Action where
  | tick
  | reset
deriving Repr, DecidableEq

/-- One step of the poll-state machine. -/
def step (s : PollState) : Action → PollState
  | Action.tick => (update s).1
  | Action.reset => set_active_mode s

/-- The state after a run of operations from the initial state. -/
def run (acts : List Action) : PollState :=
  acts.foldl step initState

/-- State after `n` timer ticks from the initial state, with no resets. -/
def runTicks : Nat → PollState
  | 0 => initState
  | n + 1 => (update (runTicks n)).1

/-- Number of executed polls among the first `n` ticks. -/
def pollCount : Nat → Nat
  | 0 => 0
  | n + 1 => pollCount n + (if (update (runTicks n)).2 then 1 else 0)

/-- The trace of a pure-tick run: the state together with the list of
cycle lengths in effect at each executed poll, in order. -/
def runTicksTrace : Nat → PollState × List Nat
  | 0 => (initState, [])
  | n + 1 =>
    let p := runTicksTrace n
    let r := update p.1
    (r.1, p.2 ++ if r.2 then [p.1.update_cycle_len] else [])

/-- Cycle lengths in effect at the successive executed polls among the
first `n` ticks. -/
def pollCycleLens (n : Nat) : List Nat :=
  (runTicksTrace n).2

/-- One step of the poll-state machine paired with a ghost counter of the
ticks elapsed since the last executed poll (or since the start).  The
counter is driven by the observable outcome of each tick, not by the
poller's internal field. -/
def stepElapsed (p : PollState × Nat) (a : Action) : PollState × Nat :=
  match a with
  | Action.tick =>
      let r := update p.1
      (r.1, if r.2 then 0 else p.2 + 1)
  | Action.reset => (set_active_mode p.1, p.2)

/-- Ghost observer of a run: alongside the state, the number of ticks
elapsed since the last executed poll (or since the start). -/
def runElapsed (acts : List Action) : PollState × Nat :=
  acts.foldl stepElapsed (initState, 0)

/-- A stored preset: `{'id': ..., 'name': ..., 'job_params': ...}`. -/
structure Preset where
  id : String
  name : String
  job_params : String
deriving Repr, DecidableEq

/-- The `for it in settings['presets']` loop of `NeuroxApp.update_preset`,
carrying the loop state (`new_presets`, `is_found`). -/
def update_preset_loop (preset : Preset) (remove : Bool) :
    List Preset → List Preset → Bool → List Preset × Bool
  | [], new_presets, is_found => (new_presets, is_found)
  | it :: rest, new_presets, is_found =>
    if it.id = preset.id then
      update_preset_loop preset remove rest
        (new_presets ++ if remove then [] else [preset]) true
    else
      update_preset_loop preset remove rest (new_presets ++ [it]) is_found

/-- Source `NeuroxApp.update_preset`: rebuild the preset list, replacing (or
dropping, when `remove`) every entry with the incoming preset's id, and
appending the preset when its id was absent and `remove` is not set. -/
def update_preset (presets : List Preset) (preset : Preset) (remove : Bool) :
    List Preset :=
  let r := update_preset_loop preset remove presets [] false
  if !r.2 && !remove then r.1 ++ [preset] else r.1

/-- Test for the menu-rebuild effect. -/
def Effect.isRenderMenu : Effect → Bool
  | Effect.renderMenu _ => true
  | _ => false

/-- The element-wise contribution of the `update_preset` loop: a matching
entry becomes `[preset]` (or nothing when removing), any other entry is
kept. -/
def processedPresets (preset : Preset) (remove : Bool) : List Preset → List Preset
  | [] => []
  | it :: rest =>
      (if it.id = preset.id then (if remove then [] else [preset]) else [it]) ++
        processedPresets preset remove rest

/-- States invariant of the poll-state machine: the cycle length stays in
`[1, MAX_UPDATE_CYCLE_LEN]` and the iteration counter stays below
`MAX_UPDATE_CYCLE_LEN`. -/
def Inv (s : PollState) : Prop :=
  1 ≤ s.update_cycle_len ∧ s.update_cycle_len ≤ MAX_UPDATE_CYCLE_LEN ∧
    s.iteration < MAX_UPDATE_CYCLE_LEN

/-! ### Helper lemmas -/

/-- Case analysis on one tick: either the backoff skip (incremented counter
still below the cycle length) or the poll branch. -/
lemma update_cases (s : PollState) :
    (s.iteration + 1 < s.update_cycle_len ∧
       update s = ({ s with iteration := s.iteration + 1 }, false)) ∨
    (s.update_cycle_len ≤ s.iteration + 1 ∧
       update s = ({ iteration := 0,
                     update_cycle_len :=
                       min (2 * s.update_cycle_len) MAX_UPDATE_CYCLE_LEN },
                   true)) := by
  by_cases h : s.iteration + 1 < s.update_cycle_len
  · exact Or.inl ⟨h, by simp [update, h]⟩
  · exact Or.inr ⟨by omega, by simp [update, h]⟩

/-- On the skip branch, a tick produces no effect. -/
lemma update_tick_skip (s : PollState) (res : Except PyExc (List Update))
    (jobs : List JobDescription) (h : s.iteration + 1 < s.update_cycle_len) :
    update_tick s res jobs = ({ s with iteration := s.iteration + 1 }, []) := by
  simp [update_tick, h]

/-- On the poll branch, a tick runs the guarded body and then the
re-render. -/
lemma update_tick_poll (s : PollState) (res : Except PyExc (List Update))
    (jobs : List JobDescription) (h : s.update_cycle_len ≤ s.iteration + 1) :
    update_tick s res jobs =
      ({ iteration := 0,
         update_cycle_len := min (2 * s.update_cycle_len) MAX_UPDATE_CYCLE_LEN },
       try_update_body res ++ [render_menu jobs]) := by
  have h' : ¬ (s.iteration + 1 < s.update_cycle_len) := by omega
  simp [update_tick, h']

/-- The guarded body always contains the remote-poll call. -/
lemma pollRemote_mem_try (res : Except PyExc (List Update)) :
    Effect.pollRemote ∈ try_update_body res := by
  cases res with
  | ok us => simp [try_update_body]
  | error e => cases e <;> simp [try_update_body]

lemma inv_initState : Inv initState := by
  simp [Inv, initState, MAX_UPDATE_CYCLE_LEN]

lemma inv_step (s : PollState) (a : Action) (h : Inv s) : Inv (step s a) := by
  obtain ⟨h1, h2, h3⟩ := h
  cases a with
  | tick =>
    show Inv (update s).1
    rcases update_cases s with ⟨hc, he⟩ | ⟨hc, he⟩ <;> rw [he]
    · exact ⟨h1, h2, by show s.iteration + 1 < MAX_UPDATE_CYCLE_LEN; omega⟩
    · refine ⟨?_, ?_, ?_⟩
      · show 1 ≤ min (2 * s.update_cycle_len) MAX_UPDATE_CYCLE_LEN
        simp only [MAX_UPDATE_CYCLE_LEN] at *
        omega
      · show min (2 * s.update_cycle_len) MAX_UPDATE_CYCLE_LEN ≤ MAX_UPDATE_CYCLE_LEN
        exact Nat.min_le_right _ _
      · show (0 : Nat) < MAX_UPDATE_CYCLE_LEN
        simp only [MAX_UPDATE_CYCLE_LEN]
        omega
  | reset =>
    show Inv (set_active_mode s)
    exact ⟨Nat.le_refl 1,
      by show (1 : Nat) ≤ MAX_UPDATE_CYCLE_LEN; simp [MAX_UPDATE_CYCLE_LEN], h3⟩

lemma inv_foldl : ∀ (acts : List Action) (s : PollState),
    Inv s → Inv (List.foldl step s acts)
  | [], _, h => h
  | a :: rest, s, h => inv_foldl rest (step s a) (inv_step s a h)

lemma inv_run (acts : List Action) : Inv (run acts) :=
  inv_foldl acts initState inv_initState

/-! ### Claims -/

/-- Claim C1: on every tick the iteration counter is first incremented by
1; if the incremented counter is still strictly below the cycle length the
tick returns with no remote poll and no observable effect beyond the
counter increment; otherwise the counter is reset to 0, the cycle length
becomes `min(2 * cycleLength, maxCycleLength)`, and the remote poll is
performed. -/
theorem tick_backoff_step (s : PollState) (res : Except PyExc (List Update))
    (jobs : List JobDescription) :
    (s.iteration + 1 < s.update_cycle_len →
       update_tick s res jobs = ({ s with iteration := s.iteration + 1 }, [])) ∧
    (s.update_cycle_len ≤ s.iteration + 1 →
       (update_tick s res jobs).1 =
         { iteration := 0,
           update_cycle_len := min (2 * s.update_cycle_len) MAX_UPDATE_CYCLE_LEN } ∧
       Effect.pollRemote ∈ (update_tick s res jobs).2) := by
  constructor
  · intro h
    exact update_tick_skip s res jobs h
  · intro h
    rw [update_tick_poll s res jobs h]
    exact ⟨rfl, List.mem_append.mpr (Or.inl (pollRemote_mem_try res))⟩

/-- Witness for C1: a concrete skip tick and a concrete poll tick. -/
theorem tick_backoff_step_witness :
    (update_tick ⟨0, 2⟩ (Except.ok []) [] = (⟨1, 2⟩, [])) ∧
    ((update_tick ⟨1, 2⟩ (Except.ok []) []).1 =
       ⟨0, min (2 * 2) MAX_UPDATE_CYCLE_LEN⟩ ∧
     Effect.pollRemote ∈ (update_tick ⟨1, 2⟩ (Except.ok []) []).2) :=
  ⟨(tick_backoff_step ⟨0, 2⟩ (Except.ok []) []).1 (by decide),
   (tick_backoff_step ⟨1, 2⟩ (Except.ok []) []).2 (by decide)⟩

/-- Claim C4: after `set_active_mode`, the very next tick executes a poll,
whatever the cycle length and iteration counter were before the reset. -/
theorem reset_then_poll (s : PollState) (res : Except PyExc (List Update))
    (jobs : List JobDescription) :
    (update (set_active_mode s)).2 = true ∧
      Effect.pollRemote ∈ (update_tick (set_active_mode s) res jobs).2 := by
  have h : (set_active_mode s).update_cycle_len ≤ (set_active_mode s).iteration + 1 := by
    simp [set_active_mode]
  constructor
  · rcases update_cases (set_active_mode s) with ⟨hc, he⟩ | ⟨hc, he⟩
    · exact absurd hc (by omega)
    · rw [he]
  · rw [update_tick_poll _ res jobs h]
    exact List.mem_append.mpr (Or.inl (pollRemote_mem_try res))

/-- Claim C5: over every interleaving of ticks and backoff resets from the
initial state, the cycle length never exceeds `MAX_UPDATE_CYCLE_LEN`. -/
theorem cycle_len_le_max (acts : List Action) :
    (run acts).update_cycle_len ≤ MAX_UPDATE_CYCLE_LEN :=
  (inv_run acts).2.1

/-- Doubling a capped power of two and re-capping is the next capped
power of two. -/
lemma two_mul_min_pow (k : Nat) :
    min (2 * min (2 ^ k) MAX_UPDATE_CYCLE_LEN) MAX_UPDATE_CYCLE_LEN
      = min (2 ^ (k + 1)) MAX_UPDATE_CYCLE_LEN := by
  have e : 2 ^ (k + 1) = 2 * 2 ^ k := by rw [pow_succ, Nat.mul_comm]
  simp only [MAX_UPDATE_CYCLE_LEN]
  omega

/-- After `n` reset-free ticks the cycle length is the capped power of two
determined by the number of executed polls. -/
lemma runTicks_cycle_pow (n : Nat) :
    (runTicks n).update_cycle_len = min (2 ^ pollCount n) MAX_UPDATE_CYCLE_LEN := by
  induction n with
  | zero => rfl
  | succ n ih =>
    show ((update (runTicks n)).1).update_cycle_len
        = min (2 ^ (pollCount n + if (update (runTicks n)).2 then 1 else 0))
            MAX_UPDATE_CYCLE_LEN
    rcases update_cases (runTicks n) with ⟨hc, he⟩ | ⟨hc, he⟩ <;> rw [he]
    · simpa using ih
    · simp only [if_true]
      show min (2 * (runTicks n).update_cycle_len) MAX_UPDATE_CYCLE_LEN
          = min (2 ^ (pollCount n + 1)) MAX_UPDATE_CYCLE_LEN
      rw [ih]
      exact two_mul_min_pow (pollCount n)

/-- Along a reset-free run the cycle length never decreases. -/
lemma runTicks_mono (n : Nat) :
    (runTicks n).update_cycle_len ≤ (runTicks (n + 1)).update_cycle_len := by
  have hb : (runTicks n).update_cycle_len ≤ MAX_UPDATE_CYCLE_LEN := by
    rw [runTicks_cycle_pow n]
    exact Nat.min_le_right _ _
  show (runTicks n).update_cycle_len ≤ ((update (runTicks n)).1).update_cycle_len
  rcases update_cases (runTicks n) with ⟨hc, he⟩ | ⟨hc, he⟩
  · exact le_of_eq (by rw [he])
  · rw [he]
    show (runTicks n).update_cycle_len
        ≤ min (2 * (runTicks n).update_cycle_len) MAX_UPDATE_CYCLE_LEN
    omega

/-- Claim C2: in every reset-free run from the initial state the cycle
length is non-decreasing and equals `min(2 ^ k, maxCycleLength)` after the
`k`-th executed poll, and with the cap 30 the cycle lengths in effect at
the successive executed polls start `1, 2, 4, 8, 16, 30, 30, 30`. -/
theorem cycle_len_growth :
    (∀ n : Nat,
       (runTicks n).update_cycle_len = min (2 ^ pollCount n) MAX_UPDATE_CYCLE_LEN) ∧
    (∀ n : Nat, (runTicks n).update_cycle_len ≤ (runTicks (n + 1)).update_cycle_len) ∧
    pollCycleLens 121 = [1, 2, 4, 8, 16, 30, 30, 30] :=
  ⟨runTicks_cycle_pow, runTicks_mono, by decide⟩

/-- The ghost tick counter tracks the poller's internal iteration field
across one step. -/
lemma stepElapsed_eq (p : PollState × Nat) (a : Action) (h : p.2 = p.1.iteration) :
    stepElapsed p a = (step p.1 a, (step p.1 a).iteration) := by
  cases a with
  | tick =>
    simp only [stepElapsed, step]
    rcases update_cases p.1 with ⟨hc, he⟩ | ⟨hc, he⟩ <;> rw [he] <;> simp [h]
  | reset =>
    simp only [stepElapsed, step, set_active_mode]
    rw [h]

lemma foldl_stepElapsed : ∀ (acts : List Action) (p : PollState × Nat),
    p.2 = p.1.iteration →
    List.foldl stepElapsed p acts
      = (List.foldl step p.1 acts, (List.foldl step p.1 acts).iteration)
  | [], p, h => by
      cases p with
      | mk s g => simp only [List.foldl_nil] at *; rw [h]
  | a :: rest, p, h => by
      rw [List.foldl_cons, List.foldl_cons, stepElapsed_eq p a h]
      exact foldl_stepElapsed rest (step p.1 a, (step p.1 a).iteration) rfl

/-- The trace-derived elapsed-tick count coincides with the poller's
internal iteration counter at rest. -/
lemma runElapsed_eq (acts : List Action) :
    runElapsed acts = (run acts, (run acts).iteration) :=
  foldl_stepElapsed acts (initState, 0) rfl

/-- Claim C3 (amended): over every run of ticks and backoff resets, the
next tick executes a poll if and only if the number of ticks elapsed since
the last executed poll (or since the start), counting that tick, is at
least the cycle length in effect; every other tick is a no-op beyond the
counter increment.  (The original claim's "equals" holds only for
reset-free runs; see the counterexample.) -/
theorem poll_iff_elapsed_ge (acts : List Action) (res : Except PyExc (List Update))
    (jobs : List JobDescription) :
    ((update (run acts)).2 = true ↔
       (run acts).update_cycle_len ≤ (runElapsed acts).2 + 1) ∧
    ((update (run acts)).2 = false →
       update_tick (run acts) res jobs
         = ({ run acts with iteration := (run acts).iteration + 1 }, [])) := by
  have hE : (runElapsed acts).2 = (run acts).iteration := by rw [runElapsed_eq]
  constructor
  · rw [hE]
    rcases update_cases (run acts) with ⟨hc, he⟩ | ⟨hc, he⟩ <;> rw [he]
    · exact ⟨fun hh => by simp at hh, fun hh => absurd hh (by omega)⟩
    · exact ⟨fun _ => hc, fun _ => rfl⟩
  · intro h
    rcases update_cases (run acts) with ⟨hc, he⟩ | ⟨hc, he⟩
    · exact update_tick_skip _ res jobs hc
    · rw [he] at h
      simp at h

/-- Witness for the amended C3 at a concrete no-op tick. -/
theorem poll_iff_elapsed_ge_witness :
    ((update (run [Action.tick])).2 = true ↔
       (run [Action.tick]).update_cycle_len ≤ (runElapsed [Action.tick]).2 + 1) ∧
    update_tick (run [Action.tick]) (Except.ok []) []
      = ({ run [Action.tick] with iteration := (run [Action.tick]).iteration + 1 }, []) :=
  ⟨(poll_iff_elapsed_ge [Action.tick] (Except.ok []) []).1,
   (poll_iff_elapsed_ge [Action.tick] (Except.ok []) []).2 (by decide)⟩

/-- Counterexample to C3 as stated: after five ticks and a backoff reset
the state is `⟨2, 1⟩`; the next tick executes a poll although the elapsed
tick count (3, counting that tick) differs from the cycle length in
effect (1). -/
theorem poll_elapsed_eq_counterexample :
    (update (run [Action.tick, Action.tick, Action.tick, Action.tick, Action.tick,
        Action.reset])).2 = true ∧
    (runElapsed [Action.tick, Action.tick, Action.tick, Action.tick, Action.tick,
        Action.reset]).2 + 1
      ≠ (run [Action.tick, Action.tick, Action.tick, Action.tick, Action.tick,
          Action.reset]).update_cycle_len := by
  decide

/-- Counterexample to C6 as stated: after five ticks and a backoff reset
the reachable at-rest state is `⟨2, 1⟩`, violating
`iterationCounter < cycleLength`. -/
theorem rest_invariant_counterexample :
    ¬ ((run [Action.tick, Action.tick, Action.tick, Action.tick, Action.tick,
          Action.reset]).iteration
        < (run [Action.tick, Action.tick, Action.tick, Action.tick, Action.tick,
            Action.reset]).update_cycle_len) := by
  decide

/-- Claim C6 (amended): in every reachable at-rest state,
`1 ≤ cycleLength ≤ maxCycleLength` and
`0 ≤ iterationCounter < maxCycleLength`; the stronger bound
`iterationCounter < cycleLength` holds in the initial state and after
every tick (the counter is reset to 0 when a poll fires), but a backoff
reset may leave `iterationCounter ≥ cycleLength` until the next tick. -/
theorem rest_invariant_amended :
    (∀ acts : List Action,
       1 ≤ (run acts).update_cycle_len ∧
         (run acts).update_cycle_len ≤ MAX_UPDATE_CYCLE_LEN ∧
         (run acts).iteration < MAX_UPDATE_CYCLE_LEN) ∧
    initState.iteration < initState.update_cycle_len ∧
    (∀ acts : List Action,
       (run (acts ++ [Action.tick])).iteration
         < (run (acts ++ [Action.tick])).update_cycle_len) := by
  refine ⟨fun acts => inv_run acts, by decide, fun acts => ?_⟩
  obtain ⟨h1, h2, h3⟩ := inv_run acts
  have hr : run (acts ++ [Action.tick]) = (update (run acts)).1 := by
    simp only [run, List.foldl_append, List.foldl_cons, List.foldl_nil, step]
  rw [hr]
  rcases update_cases (run acts) with ⟨hc, he⟩ | ⟨hc, he⟩ <;> rw [he]
  · exact hc
  · show (0 : Nat) < min (2 * (run acts).update_cycle_len) MAX_UPDATE_CYCLE_LEN
    simp only [MAX_UPDATE_CYCLE_LEN] at *
    omega

/-- Claim C7: when an executed poll's `client.update()` raises
`AuthenticationError`, no job-update notification is delivered
(`show_updates` is never reached), exactly one distinct auth-error
notification is surfaced, the backoff state has advanced exactly as for
any executed poll, and the re-render still runs. -/
theorem auth_error_tick (s : PollState) (jobs : List JobDescription)
    (h : s.update_cycle_len ≤ s.iteration + 1) :
    update_tick s (Except.error PyExc.authError) jobs
      = ({ iteration := 0,
           update_cycle_len := min (2 * s.update_cycle_len) MAX_UPDATE_CYCLE_LEN },
         [Effect.pollRemote,
          Effect.notification "Failed to get updates" "" "You may be using the wrong token",
          Effect.renderMenu (sorted_active_jobs jobs)]) := by
  rw [update_tick_poll s _ jobs h]
  rfl

/-- Witness for C7 at the initial state. -/
theorem auth_error_tick_witness :
    (⟨0, 1⟩ : PollState).update_cycle_len ≤ (⟨0, 1⟩ : PollState).iteration + 1 ∧
    update_tick ⟨0, 1⟩ (Except.error PyExc.authError) []
      = ({ iteration := 0, update_cycle_len := min (2 * 1) MAX_UPDATE_CYCLE_LEN },
         [Effect.pollRemote,
          Effect.notification "Failed to get updates" "" "You may be using the wrong token",
          Effect.renderMenu (sorted_active_jobs [])]) :=
  ⟨by decide, auth_error_tick ⟨0, 1⟩ [] (by decide)⟩

/-- Counterexample to C8 as stated: on a poll tick, an exception raised by
`self.render_menu()` (which runs after the `try`), or by the
`rumps.notification` call inside an `except` arm, escapes the tick handler
as `Except.error` — here at the initial state, with a collaborator error
during the re-render and, respectively, during the auth-error arm's
notification delivery. -/
theorem tick_exception_counterexample :
    update_tick_exc ⟨0, 1⟩ (Except.ok []) none (some PyExc.otherExc) []
      = Except.error PyExc.otherExc ∧
    update_tick_exc ⟨0, 1⟩ (Except.error PyExc.authError) (some PyExc.otherExc) none []
      = Except.error PyExc.otherExc :=
  ⟨rfl, rfl⟩

/-- Claim C8 (amended): every failure raised inside the guarded poll body
is caught at the tick boundary — when the except-arm notification and the
re-render return normally the tick ends `Except.ok`, agreeing with the
total model, for every poll-body outcome — and skip ticks never raise;
but an exception raised by the `rumps.notification` call inside the
`ValueError` / `AuthenticationError` arms, or by `self.render_menu()`
(both outside the `try`), propagates out of the tick handler to the
timer. -/
theorem tick_exception_boundary (s : PollState) (res : Except PyExc (List Update))
    (jobs : List JobDescription) (exc : PyExc) :
    (update_tick_exc s res none none jobs = Except.ok (update_tick s res jobs)) ∧
    (s.update_cycle_len ≤ s.iteration + 1 →
       update_tick_exc s res none (some exc) jobs = Except.error exc) ∧
    (s.update_cycle_len ≤ s.iteration + 1 →
       ((∃ e, res = Except.error (PyExc.valueError e)) ∨
          res = Except.error PyExc.authError) →
       ∀ renderExc : Option PyExc,
         update_tick_exc s res (some exc) renderExc jobs = Except.error exc) ∧
    (s.iteration + 1 < s.update_cycle_len →
       ∀ notifyExc renderExc : Option PyExc,
         update_tick_exc s res notifyExc renderExc jobs
           = Except.ok ({ s with iteration := s.iteration + 1 }, [])) := by
  refine ⟨?_, ?_, ?_, ?_⟩
  · by_cases h : s.iteration + 1 < s.update_cycle_len
    · simp [update_tick_exc, update_tick, h]
    · cases res with
      | ok us => simp [update_tick_exc, update_tick, h, try_update_body]
      | error e => cases e <;> simp [update_tick_exc, update_tick, h, try_update_body]
  · intro h
    have h' : ¬ (s.iteration + 1 < s.update_cycle_len) := by omega
    cases res with
    | ok us => simp [update_tick_exc, h']
    | error e => cases e <;> simp [update_tick_exc, h']
  · intro h hres renderExc
    have h' : ¬ (s.iteration + 1 < s.update_cycle_len) := by omega
    rcases hres with ⟨e, he⟩ | he <;> subst he <;> simp [update_tick_exc, h']
  · intro h notifyExc renderExc
    simp [update_tick_exc, h]

/-- Witness for the amended C8: the four behaviors at concrete states —
poll tick fully handled, render failure propagating, arm-notification
failure propagating, and a skip tick that never raises. -/
theorem tick_exception_boundary_witness :
    update_tick_exc ⟨0, 1⟩ (Except.ok []) none none []
      = Except.ok (update_tick ⟨0, 1⟩ (Except.ok []) []) ∧
    update_tick_exc ⟨0, 1⟩ (Except.ok []) none (some PyExc.otherExc) []
      = Except.error PyExc.otherExc ∧
    update_tick_exc ⟨0, 1⟩ (Except.error PyExc.authError) (some PyExc.otherExc) none []
      = Except.error PyExc.otherExc ∧
    update_tick_exc ⟨2, 5⟩ (Except.ok []) (some PyExc.otherExc) (some PyExc.otherExc) []
      = Except.ok (⟨3, 5⟩, []) :=
  ⟨(tick_exception_boundary ⟨0, 1⟩ (Except.ok []) [] PyExc.otherExc).1,
   (tick_exception_boundary ⟨0, 1⟩ (Except.ok []) [] PyExc.otherExc).2.1 (by decide),
   (tick_exception_boundary ⟨0, 1⟩ (Except.error PyExc.authError) [] PyExc.otherExc).2.2.1
     (by decide) (Or.inr rfl) none,
   (tick_exception_boundary ⟨2, 5⟩ (Except.ok []) [] PyExc.otherExc).2.2.2
     (by decide) (some PyExc.otherExc) (some PyExc.otherExc)⟩

/-- Notifications produced by `show_updates` are never menu rebuilds. -/
lemma show_updates_no_render (us : List Update) :
    (show_updates us).filter Effect.isRenderMenu = [] := by
  induction us with
  | nil => rfl
  | cons u rest ih => cases u <;> simp [show_updates, Effect.isRenderMenu, ih]

/-- The guarded body of a tick never rebuilds the menu itself. -/
lemma try_update_body_no_render (res : Except PyExc (List Update)) :
    (try_update_body res).filter Effect.isRenderMenu = [] := by
  cases res with
  | ok us => simp [try_update_body, Effect.isRenderMenu, show_updates_no_render us]
  | error e => cases e <;> simp [try_update_body, Effect.isRenderMenu]

/-- The job list shown by `render_menu` is sorted by creation time. -/
lemma sorted_active_jobs_sorted (jobs : List JobDescription) :
    (sorted_active_jobs jobs).Pairwise
      (fun a b => a.created_at ≤ b.created_at) := by
  have h : (sorted_active_jobs jobs).Pairwise
      (fun a b => decide (a.created_at ≤ b.created_at) = true) := by
    unfold sorted_active_jobs
    apply List.sorted_mergeSort
    · intro a b c hab hbc
      simp only [decide_eq_true_eq] at *
      omega
    · intro a b
      simp only [Bool.or_eq_true, decide_eq_true_eq]
      omega
  exact h.imp (fun hab => by simpa using hab)

/-- Claim C9: whenever a poll executes (successfully or not) the menu is
rebuilt exactly once, showing the current active jobs sorted by creation
timestamp ascending; on skip ticks no rebuild happens. -/
theorem render_once_sorted (s : PollState) (res : Except PyExc (List Update))
    (jobs : List JobDescription) :
    (s.update_cycle_len ≤ s.iteration + 1 →
       ((update_tick s res jobs).2.filter Effect.isRenderMenu
           = [Effect.renderMenu (sorted_active_jobs jobs)] ∧
        (sorted_active_jobs jobs).Perm jobs ∧
        (sorted_active_jobs jobs).Pairwise
          (fun a b => a.created_at ≤ b.created_at))) ∧
    (s.iteration + 1 < s.update_cycle_len →
       (update_tick s res jobs).2.filter Effect.isRenderMenu = []) := by
  constructor
  · intro h
    refine ⟨?_, List.mergeSort_perm jobs _, sorted_active_jobs_sorted jobs⟩
    rw [update_tick_poll s res jobs h]
    show (try_update_body res ++ [render_menu jobs]).filter Effect.isRenderMenu = _
    rw [List.filter_append, try_update_body_no_render res]
    rfl
  · intro h
    rw [update_tick_skip s res jobs h]
    rfl

/-- Witness for C9: a concrete poll tick and a concrete skip tick. -/
theorem render_once_sorted_witness :
    ((update_tick ⟨0, 1⟩ (Except.ok [])
         [⟨"a", "running", 5⟩, ⟨"b", "pending", 3⟩]).2.filter Effect.isRenderMenu
       = [Effect.renderMenu
            (sorted_active_jobs [⟨"a", "running", 5⟩, ⟨"b", "pending", 3⟩])] ∧
     (sorted_active_jobs [⟨"a", "running", 5⟩, ⟨"b", "pending", 3⟩]).Perm
       [⟨"a", "running", 5⟩, ⟨"b", "pending", 3⟩] ∧
     (sorted_active_jobs [⟨"a", "running", 5⟩, ⟨"b", "pending", 3⟩]).Pairwise
       (fun a b => a.created_at ≤ b.created_at)) ∧
    (update_tick ⟨0, 5⟩ (Except.ok []) []).2.filter Effect.isRenderMenu = [] :=
  ⟨(render_once_sorted ⟨0, 1⟩ (Except.ok [])
      [⟨"a", "running", 5⟩, ⟨"b", "pending", 3⟩]).1 (by decide),
   (render_once_sorted ⟨0, 5⟩ (Except.ok []) []).2 (by decide)⟩

/-- Unfolding of the `update_preset` loop: the accumulator is extended by
the element-wise contributions, and the found flag records whether any
entry matched. -/
lemma update_preset_loop_spec (p : Preset) (r : Bool) :
    ∀ (l acc : List Preset) (found : Bool),
      update_preset_loop p r l acc found
        = (acc ++ processedPresets p r l,
           found || l.any (fun it => decide (it.id = p.id))) := by
  intro l
  induction l with
  | nil =>
    intro acc found
    simp [update_preset_loop, processedPresets]
  | cons it rest ih =>
    intro acc found
    by_cases h : it.id = p.id
    · have hd : (decide (it.id = p.id)) = true := by simp [h]
      simp only [update_preset_loop, if_pos h, ih, processedPresets, h,
        List.any_cons, hd, Bool.true_or, Bool.or_true, List.append_assoc]
      simp
    · have hd : (decide (it.id = p.id)) = false := by simp [h]
      simp only [update_preset_loop, if_neg h, ih, processedPresets,
        List.any_cons, hd, Bool.false_or, List.append_assoc]

/-- With `remove=False` the loop replaces matching entries in place. -/
lemma processedPresets_map (p : Preset) (l : List Preset) :
    processedPresets p false l
      = l.map (fun it => if it.id = p.id then p else it) := by
  induction l with
  | nil => rfl
  | cons it rest ih =>
    by_cases h : it.id = p.id <;> simp [processedPresets, h, ih]

/-- With `remove=True` the loop drops matching entries. -/
lemma processedPresets_filter (p : Preset) (l : List Preset) :
    processedPresets p true l
      = l.filter (fun it => !decide (it.id = p.id)) := by
  induction l with
  | nil => rfl
  | cons it rest ih =>
    by_cases h : it.id = p.id <;> simp [processedPresets, List.filter_cons, h, ih]

/-- When no entry matches, in-place replacement is the identity. -/
lemma map_eq_self_of_not_found (p : Preset) (l : List Preset)
    (h : l.any (fun it => decide (it.id = p.id)) = false) :
    l.map (fun it => if it.id = p.id then p else it) = l := by
  induction l with
  | nil => rfl
  | cons it rest ih =>
    simp only [List.any_cons, Bool.or_eq_false_iff, decide_eq_false_iff_not] at h
    simp [h.1, ih h.2]

/-- Claim C10: `update_preset p remove=False` replaces every entry bearing
the incoming preset's id in place (everything else unchanged, order kept)
and appends the preset when its id was absent; `update_preset p
remove=True` removes every entry bearing that id and keeps the rest in
order. -/
theorem update_preset_spec (presets : List Preset) (preset : Preset) :
    (update_preset presets preset false
       = if presets.any (fun it => decide (it.id = preset.id)) = true then
           presets.map (fun it => if it.id = preset.id then preset else it)
         else presets ++ [preset]) ∧
    (update_preset presets preset true
       = presets.filter (fun it => !decide (it.id = preset.id))) := by
  constructor
  · by_cases hf : presets.any (fun it => decide (it.id = preset.id)) = true
    · simp [update_preset, update_preset_loop_spec preset false presets [] false,
        hf, processedPresets_map]
    · have hf' : presets.any (fun it => decide (it.id = preset.id)) = false := by
        revert hf
        cases presets.any (fun it => decide (it.id = preset.id)) <;> simp
      simp [update_preset, update_preset_loop_spec preset false presets [] false,
        hf', processedPresets_map, map_eq_self_of_not_found preset presets hf']
  · simp [update_preset, update_preset_loop_spec preset true presets [] false,
      processedPresets_filter]

end NeuroxApp
